import Mathlib

set_option maxRecDepth 65536

/-!
Verification development for the FreeRead retrieval/extraction core.

The definitions below are a shallow embedding of the JavaScript sources:
`cookieService.js`, `archiveService.js`, `contentProcessor.js`,
`nytimesService.js` and the WSJ service (`debugService.js` bundle).
External collaborators (HTTP transport, jsdom DOM queries, Mozilla
Readability, URL parsing) are modelled as oracle inputs; everything the
repository itself computes is translated directly from the source.
-/

/-- Boolean test that `pat` occurs as a contiguous sublist of the second list
(JavaScript `String.prototype.includes` on the character sequence). -/
def containsList (pat : List Char) : List Char → Bool
  | [] => pat.isEmpty
  | c :: rest => pat.isPrefixOf (c :: rest) || containsList pat rest

/-- Model of JavaScript `String.prototype.toLowerCase` (character-wise
lowering, written as structural recursion so that the kernel can evaluate
concrete instances). -/
def lowerStr (s : String) : String :=
  ⟨s.data.map Char.toLower⟩

/-- Model of JavaScript `String.prototype.trim`: drop whitespace from both
ends (structural recursion over the character list). -/
def jsTrim (s : String) : String :=
  ⟨((s.data.dropWhile Char.isWhitespace).reverse.dropWhile
      Char.isWhitespace).reverse⟩

/-- Model of `s.toLowerCase().includes(pat.toLowerCase())`. -/
def containsLower (s pat : String) : Bool :=
  containsList (lowerStr pat).data (lowerStr s).data

/-- Model of case-sensitive `s.includes(pat)`. -/
def containsStr (s pat : String) : Bool :=
  containsList pat.data s.data

/-- Model of JavaScript `String.prototype.replace` with a global single-char
pattern (the only shape the source uses). -/
def replaceChar (c : Char) (repl : List Char) : List Char → List Char
  | [] => []
  | d :: rest => (if d = c then repl else [d]) ++ replaceChar c repl rest

/-- Lexicographic string comparison (JavaScript `<` on strings), expressed
on the character lists so that the kernel can evaluate it. -/
def strLtB (a b : String) : Bool := decide (a.data < b.data)

/-- Lexicographic comparison used by the JavaScript default sort. -/
def strLeB (a b : String) : Bool := decide (a.data ≤ b.data)

/-- JavaScript `a || b` for a possibly-null / possibly-empty string `a`
(`none` models `null`/`undefined`; the empty string is falsy). -/
def jsOrS (a : Option String) (b : String) : String :=
  match a with
  | some s => if s = "" then b else s
  | none => b

/-- JavaScript `s || defaultString` for a plain (non-null) string. -/
def jsOrStr (s b : String) : String :=
  if s = "" then b else s

/-- JavaScript `s || null` for a possibly-null string (empty collapses to null). -/
def jsOrNull (a : Option String) : Option String :=
  match a with
  | some s => if s = "" then none else some s
  | none => none

/-- JavaScript `n || m` on numbers (0 is falsy). -/
def natOr (n m : Nat) : Nat :=
  if n = 0 then m else n

/-- JavaScript `Array.prototype.join(sep)`. -/
def joinSep (sep : String) : List String → String
  | [] => ""
  | [a] => a
  | a :: b :: rest => a ++ sep ++ joinSep sep (b :: rest)

/-- A JavaScript runtime value, as far as the `hasPaywall` input guards can
distinguish one: `null`, `undefined`, a string, or some non-string value. -/
inductive JSVal where
  | jsNull
  | undef
  | str (s : String)
  | num (n : Int)
  | boolean (b : Bool)
  | obj
deriving DecidableEq

namespace CookieService

/-- Paywall indicator strings from `CookieService.hasPaywall`
(`cookieService.js`, `paywallIndicators`). -/
def paywallIndicators : List String :=
  [ "subscribe to the times",
    "you\x27ve reached your article limit",
    "log in or create a free account",
    "subscribe to continue reading",
    "subscribe to wsj",
    "wall street journal subscription",
    "wsj.com subscription",
    "log in to continue reading",
    "sign in to continue",
    "this article is for subscribers only",
    "continue reading",
    "data-testid=\"paywall\"",
    "class=\"paywall\"",
    "id=\"paywall\"",
    "data-module=\"paywall\"",
    "article limit reached",
    "subscribe now",
    "become a subscriber",
    "subscribe to read",
    "subscription required",
    "premium content" ]

/-- Bot protection / CAPTCHA indicator strings from `CookieService.hasPaywall`
(`cookieService.js`, `botProtectionIndicators`). -/
def botProtectionIndicators : List String :=
  [ "please enable js",
    "captcha-delivery.com",
    "cf-browser-verification",
    "checking your browser",
    "just a moment",
    "ddos protection",
    "cloudflare",
    "geo.captcha-delivery.com",
    "ct.captcha-delivery.com",
    "browser verification",
    "verify you are human" ]

/-- Core of `CookieService.hasPaywall`, parametrised by the two indicator
tables: lowercase the html once, check the bot-protection table first and
return `true` on a match (the source comment says "Treat as paywall since
content is blocked"), otherwise consult the paywall table. -/
def hasPaywallCore (bots pays : List String) (html : String) : Bool :=
  let htmlLower := lowerStr html
  if bots.any (fun i => containsList (lowerStr i).data htmlLower.data) then true
  else pays.any (fun i => containsList (lowerStr i).data htmlLower.data)

/-- `CookieService.hasPaywall` on a string input (the guard for non-string
inputs lives in `hasPaywallJS`). -/
def hasPaywall (html : String) : Bool :=
  hasPaywallCore botProtectionIndicators paywallIndicators html

/-- `CookieService.hasPaywall` on an arbitrary JavaScript value: the source
starts with `if (!html || typeof html !== 'string') return false`. -/
def hasPaywallJS : JSVal → Bool
  | .str s => if s = "" then false else hasPaywall s
  | _ => false

end CookieService

namespace ContentProcessor

/-- Paywall indicator strings from `ContentProcessor.hasPaywall`
(`contentProcessor.js`); this copy has no bot-protection table. -/
def paywallIndicators : List String :=
  [ "subscribe to the times",
    "you\x27ve reached your article limit",
    "log in or create a free account",
    "subscribe to continue reading",
    "subscribe to wsj",
    "wall street journal subscription",
    "wsj.com subscription",
    "log in to continue reading",
    "sign in to continue",
    "this article is for subscribers only",
    "continue reading",
    "data-testid=\"paywall\"",
    "class=\"paywall\"",
    "id=\"paywall\"",
    "data-module=\"paywall\"",
    "article limit reached",
    "subscribe now",
    "become a subscriber",
    "subscribe to read",
    "subscription required",
    "premium content" ]

/-- `ContentProcessor.hasPaywall` on a string input. -/
def hasPaywallStr (html : String) : Bool :=
  let htmlLower := lowerStr html
  paywallIndicators.any (fun i => containsList (lowerStr i).data htmlLower.data)

/-- `ContentProcessor.hasPaywall` on an arbitrary JavaScript value
(`if (!html || typeof html !== 'string') return false`). -/
def hasPaywallJS : JSVal → Bool
  | .str s => if s = "" then false else hasPaywallStr s
  | _ => false

end ContentProcessor

/-- Decidable equality for `Except` results, used to evaluate the
orchestration loop and the extraction pipeline on concrete inputs. -/
instance {ε α : Type} [DecidableEq ε] [DecidableEq α] : DecidableEq (Except ε α) :=
  fun a b =>
    match a, b with
    | .error x, .error y => decidable_of_iff (x = y) (by simp)
    | .ok x, .ok y => decidable_of_iff (x = y) (by simp)
    | .error _, .ok _ => isFalse (by simp)
    | .ok _, .error _ => isFalse (by simp)

/-- Outcome of invoking one retrieval method's `fn()` inside the orchestration
loops: the promise either rejected (`threw`, carrying the error message) or
resolved with an html value (`none` models `null`/`undefined`). -/
inductive MethodResult where
  | threw (msg : String)
  | returned (html : Option String)
deriving DecidableEq

/-- One entry of the `methods` array together with the outcome of its `fn()`. -/
structure MethodStep where
  name : String
  result : MethodResult
deriving DecidableEq

/-- What one iteration of the orchestration loop does with a step: accept the
html and return it, or record a failure message in `lastError` and continue. -/
inductive StepOutcome where
  | accept (html : String)
  | record (msg : String)
deriving DecidableEq

/-- True when the outcome records a failure rather than accepting html. -/
def StepOutcome.isRecord : StepOutcome → Bool
  | .accept _ => false
  | .record _ => true

/-- The recorded message of an outcome, with a default for the accept case. -/
def StepOutcome.msgOr (o : StepOutcome) (d : String) : String :=
  match o with
  | .accept _ => d
  | .record m => m

namespace WSJService

/-- Loop body of `WSJService.fetchArticle` (debugService.js bundle):
a thrown error is recorded; returned html is accepted when the method is
`headless` and the html is non-empty, when the method is `archive` and the
html is non-empty without the JS-block marker, or when it is non-empty,
without the JS-block marker and without paywall indicators; otherwise the
matching failure message is recorded. -/
def stepOutcome (st : MethodStep) : StepOutcome :=
  match st.result with
  | .threw m => .record m
  | .returned none => .record ("Empty HTML received (method: " ++ st.name ++ ")")
  | .returned (some s) =>
    let isEmpty := s = ""
    let jsBlock := containsLower s "please enable js"
    let isPaywalled := CookieService.hasPaywall s
    if st.name = "headless" && !(decide isEmpty) then .accept s
    else if st.name = "archive" && !(decide isEmpty) && !jsBlock then .accept s
    else if !(decide isEmpty) && !jsBlock && !isPaywalled then .accept s
    else .record
      (if isEmpty then "Empty HTML received (method: " ++ st.name ++ ")"
       else if jsBlock then "JS rendering required (method: " ++ st.name ++ ")"
       else "Paywall detected (method: " ++ st.name ++ ")")

/-- The `for (const method of methods)` loop with its `lastError` accumulator. -/
def fetchLoop (lastError : Option String) : List MethodStep → Except String String
  | [] => .error ("WSJ fetch failed: " ++
      lastError.getD "All methods failed. WSJ has a hard paywall - try an older article (>6 months) for archive access.")
  | st :: rest =>
    match stepOutcome st with
    | .accept h => .ok h
    | .record m => fetchLoop (some m) rest

/-- `WSJService.fetchArticle`, given the outcome of each method's `fn()`. -/
def fetchArticle (steps : List MethodStep) : Except String String :=
  fetchLoop none steps

end WSJService

namespace NYTimesService

/-- Loop body of `NYTimesService.fetchArticle` (`nytimesService.js`): same as
the WSJ loop but with no archive method and hence no archive clause. -/
def stepOutcome (st : MethodStep) : StepOutcome :=
  match st.result with
  | .threw m => .record m
  | .returned none => .record ("Empty HTML received (method: " ++ st.name ++ ")")
  | .returned (some s) =>
    let isEmpty := s = ""
    let jsBlock := containsLower s "please enable js"
    let isPaywalled := CookieService.hasPaywall s
    if st.name = "headless" && !(decide isEmpty) then .accept s
    else if !(decide isEmpty) && !jsBlock && !isPaywalled then .accept s
    else .record
      (if isEmpty then "Empty HTML received (method: " ++ st.name ++ ")"
       else if jsBlock then "JS rendering required (method: " ++ st.name ++ ")"
       else "Paywall detected (method: " ++ st.name ++ ")")

/-- The method loop with its `lastError` accumulator. -/
def fetchLoop (lastError : Option String) : List MethodStep → Except String String
  | [] => .error ("NYT fetch failed: " ++ lastError.getD "All methods failed")
  | st :: rest =>
    match stepOutcome st with
    | .accept h => .ok h
    | .record m => fetchLoop (some m) rest

/-- `NYTimesService.fetchArticle`, given the outcome of each method's `fn()`. -/
def fetchArticle (steps : List MethodStep) : Except String String :=
  fetchLoop none steps

end NYTimesService

namespace ArchiveService

/-- Result of a successful archive fetch (`{html, timestamp, source}`). -/
structure ArchiveResult where
  html : String
  timestamp : String
deriving DecidableEq

/-- Visit order computed inside `ArchiveService.fetchFromArchive`
(`archiveService.js`): with `preferOlder`, keep timestamps strictly below the
cutoff, sort ascending (JavaScript default string sort) and reverse so the
most recent of the old comes first; otherwise just reverse the chronological
list so the newest comes first. -/
def timestampsToTry (timestamps : List String) (preferOlder : Bool)
    (cutoffTimestamp : String) : List String :=
  if preferOlder then
    (((timestamps.filter (fun ts => strLtB ts cutoffTimestamp)).mergeSort
        (fun a b => strLeB a b)).reverse)
  else
    timestamps.reverse

/-- Validity check applied to each archive response body: a substantial
string (more than 1000 characters) that is not the Wayback error page. -/
def validArchiveHtml (html : String) : Bool :=
  decide (1000 < html.length) &&
    !(containsStr html "Wayback Machine doesn\x27t have that page archived")

/-- The `for (const timestamp of timestampsToTry)` loop: each GET either
throws (`none` from the oracle, caught and skipped) or yields a body that is
returned when valid; otherwise the next timestamp is tried. -/
def tryTimestamps (fetchSnapshot : String → Option String) :
    List String → Option ArchiveResult
  | [] => none
  | t :: rest =>
    match fetchSnapshot t with
    | some html =>
      if validArchiveHtml html then some ⟨html, t⟩ else tryTimestamps fetchSnapshot rest
    | none => tryTimestamps fetchSnapshot rest

/-- `ArchiveService.fetchFromArchive`, with the CDX timestamp list and the
per-snapshot GET modelled as oracles and the cutoff (now minus six months in
the source) passed explicitly. Returns `none` where the source returns null. -/
def fetchFromArchive (timestamps : List String) (preferOlder : Bool)
    (cutoffTimestamp : String) (fetchSnapshot : String → Option String) :
    Option ArchiveResult :=
  if timestamps.length = 0 then none
  else tryTimestamps fetchSnapshot (timestampsToTry timestamps preferOlder cutoffTimestamp)

end ArchiveService

/-- A paragraph node as the extraction code observes it: its text content,
its outer HTML, and the `closest(...)` ancestor tests used by the aggressive
tier. -/
structure Para where
  textContent : String
  outerHTML : String
  inNav : Bool := false
  inFooter : Bool := false
  inPaywallBlock : Bool := false
deriving DecidableEq

/-- A DOM element as the extraction code observes it: its `querySelectorAll('p')`
result and its text content. -/
structure DomElement where
  paras : List Para
  textContent : String
deriving DecidableEq

/-- The jsdom document, modelled as an oracle of exactly the queries the
extraction code performs. -/
structure DomDocument where
  querySel : String → Option DomElement
  querySelAll : String → List DomElement
  allParas : List Para
  h1Text : Option String
  titleText : Option String
  authorText : Option String
  metaDescription : Option String

/-- The record Mozilla Readability's `parse()` returns (external collaborator):
only the fields the source reads. `none` models a null `byline`/`excerpt`. -/
structure RArticle where
  title : String
  textContent : String
  content : String
  byline : Option String
  excerpt : Option String
  length : Nat
deriving DecidableEq

/-- The article record the extraction pipeline returns. -/
structure ArticleRec where
  title : String
  text : String
  html : String
  author : Option String
  excerpt : Option String
  length : Nat
deriving DecidableEq

namespace ContentProcessor

/-- `ContentProcessor.escapeHtml`. -/
def escapeHtml (s : String) : String :=
  ⟨replaceChar '\x27' "&#39;".data
    (replaceChar '"' "&quot;".data
      (replaceChar '>' "&gt;".data
        (replaceChar '<' "&lt;".data
          (replaceChar '&' "&amp;".data s.data))))⟩

/-- Wrapper div used for every synthesised html fragment. -/
def wrapDiv (s : String) : String :=
  "<div id=\"readability-page-1\" class=\"page\">" ++ s ++ "</div>"

/-- The fixed ordered candidate selector list of `extractWithFallback`. -/
def fallbackCandidates : List String :=
  [ "article",
    "[data-testid=\"article-body\"]",
    "section[name=\"articleBody\"]",
    "#site-content article",
    "main article",
    "[itemprop=\"articleBody\"]",
    "[data-module=\"ArticleBody\"]",
    "[data-module=\"ArticleBodyContainer\"]",
    ".wsj-article-body",
    ".article-body",
    "[class*=\"ArticleBody\"]",
    "[class*=\"article-body\"]",
    "div[class*=\"article\"]",
    "div[class*=\"story\"]",
    "div[class*=\"content\"]",
    ".content-body",
    "[role=\"article\"]" ]

/-- Container gate of `extractWithFallback`: more than 2 paragraphs or more
than 200 characters of text. -/
def containerQualifies (el : DomElement) : Bool :=
  decide (2 < el.paras.length) || decide (200 < (jsTrim el.textContent).length)

/-- The `for (const sel of candidates)` container scan: the first selector
whose element passes the gate wins; a matched element that fails the gate
does not stop the scan. -/
def pickContainerIn (doc : DomDocument) : List String → Option DomElement
  | [] => none
  | sel :: rest =>
    match doc.querySel sel with
    | some el =>
      if containerQualifies el then some el else pickContainerIn doc rest
    | none => pickContainerIn doc rest

/-- Container selection over the fixed candidate list. -/
def pickContainer (doc : DomDocument) : Option DomElement :=
  pickContainerIn doc fallbackCandidates

/-- Paragraph collection inside a chosen container: pairs of trimmed text and
outer HTML, kept when the trimmed text is longer than 30 characters and does
not contain "subscribe". -/
def containerEntries (el : DomElement) : List (String × String) :=
  (el.paras.map (fun p => (jsTrim p.textContent, p.outerHTML))).filter
    (fun e => decide (30 < e.fst.length) && !(containsLower e.fst "subscribe"))

/-- Page-wide paragraph collection used when no container matched: trimmed
text longer than 50 characters, containing neither "subscribe" nor "cookie". -/
def pageWideEntries (doc : DomDocument) : List (String × String) :=
  (doc.allParas.map (fun p => (jsTrim p.textContent, p.outerHTML))).filter
    (fun e => decide (50 < e.fst.length) && !(containsLower e.fst "subscribe") &&
      !(containsLower e.fst "cookie"))

/-- The `(text, html)` pair `extractWithFallback` builds from the container
scan result. -/
def fallbackTextHtml (doc : DomDocument) : String × String :=
  match pickContainer doc with
  | none =>
    let es := pageWideEntries doc
    if es.isEmpty then ("", "")
    else (joinSep "\n\n" (es.map Prod.fst), wrapDiv (String.join (es.map Prod.snd)))
  | some el =>
    let es := containerEntries el
    if es.isEmpty then
      let containerText := jsTrim el.textContent
      if decide (100 < containerText.length) then
        (containerText,
         wrapDiv ⟨replaceChar '\n' "<br>".data (escapeHtml containerText).data⟩)
      else ("", "")
    else (joinSep "\n\n" (es.map Prod.fst), wrapDiv (String.join (es.map Prod.snd)))

/-- Author lookup shared by the fallback and aggressive tiers:
`(sel && (sel.textContent || '').trim()) || null`. -/
def authorOf (doc : DomDocument) : Option String :=
  match doc.authorText with
  | some s => jsOrNull (some (jsTrim s))
  | none => none

/-- Excerpt lookup shared by the fallback and aggressive tiers:
`(meta && meta.getAttribute('content')) || null`. -/
def excerptOf (doc : DomDocument) : Option String :=
  jsOrNull doc.metaDescription

/-- `ContentProcessor.extractWithFallback`: the `fallbackTitle` argument
models the hostname computed from the url by the external URL parser
(defaulting to "Untitled" when parsing fails). -/
def extractWithFallback (doc : DomDocument) (fallbackTitle : String) :
    Option ArticleRec :=
  let title := jsOrS doc.h1Text (jsOrS doc.titleText fallbackTitle)
  let th := fallbackTextHtml doc
  if th.fst = "" || decide (th.fst.length < 50) then none
  else some ⟨title, th.fst, th.snd, authorOf doc, excerptOf doc, th.fst.length⟩

/-- Fixed selector list of `extractAggressively`. -/
def aggressiveSelectors : List String :=
  [ "article",
    "[data-module=\"ArticleBody\"]",
    "[data-module=\"ArticleBodyContainer\"]",
    ".wsj-article-body",
    ".article-body",
    "[class*=\"article-body\"]",
    "[class*=\"ArticleBody\"]",
    "main article",
    "main [role=\"article\"]",
    "#article-body",
    ".article-content",
    "[itemprop=\"articleBody\"]" ]

/-- Filter applied to paragraphs found under the aggressive selectors. -/
def aggParaOk (t : String) : Bool :=
  decide (50 < t.length) && !(containsLower t "subscribe") &&
    !(containsLower t "cookie")

/-- Filter applied to page-wide paragraphs in the aggressive tier's second
pass (navigation/footer/paywall ancestors and login/signup phrases barred). -/
def pageParaOk (p : Para) : Bool :=
  let t := jsTrim p.textContent
  decide (50 < t.length) && !(containsLower t "subscribe") &&
    !(containsLower t "cookie") && !(containsLower t "log in") &&
    !(containsLower t "sign up") && !p.inNav && !p.inFooter && !p.inPaywallBlock

/-- `ContentProcessor.extractAggressively`. -/
def extractAggressively (minContentLength : Nat) (doc : DomDocument) :
    Option ArticleRec :=
  let title := jsOrS doc.h1Text (jsOrS doc.titleText "Untitled")
  let selEntries :=
    (((aggressiveSelectors.map doc.querySelAll).flatten.map DomElement.paras).flatten.map
      (fun p => (jsTrim p.textContent, p.outerHTML))).filter
      (fun e => aggParaOk e.fst)
  let allText1 := String.join (selEntries.map (fun e => e.fst ++ "\n\n"))
  let allHtml1 := String.join (selEntries.map Prod.snd)
  let pass2 :=
    if decide (allText1.length < 200) then
      let pageEntries :=
        (doc.allParas.filter pageParaOk).map
          (fun p => (jsTrim p.textContent, p.outerHTML))
      (allText1 ++ String.join (pageEntries.map (fun e => e.fst ++ "\n\n")),
       allHtml1 ++ String.join (pageEntries.map Prod.snd))
    else (allText1, allHtml1)
  if decide (pass2.fst.length < minContentLength) then none
  else some ⟨jsTrim title, jsTrim pass2.fst, wrapDiv pass2.snd, authorOf doc,
    excerptOf doc, (jsTrim pass2.fst).length⟩

/-- Last-resort paragraph scrape at the end of `extractContent`: every
paragraph in the document whose trimmed text is longer than 50 characters,
with no phrase filtering. -/
def lastResort (doc : DomDocument) : Except String ArticleRec :=
  let anyParas :=
    (doc.allParas.map (fun p => jsTrim p.textContent)).filter
      (fun t => decide (50 < t.length))
  if anyParas.isEmpty then .error "Failed to extract meaningful content"
  else
    let title := jsOrS doc.h1Text (jsOrS doc.titleText "Untitled")
    let text := joinSep "\n\n" anyParas
    .ok ⟨jsTrim title, text,
      wrapDiv (String.join (anyParas.map (fun t => "<p>" ++ escapeHtml t ++ "</p>"))),
      none, none, text.length⟩

/-- The "final attempt" branch of `extractContent`: if Readability produced
anything at all, return it even though it was below threshold; otherwise run
the last-resort scrape. -/
def afterAggressive (article? : Option RArticle) (doc : DomDocument) :
    Except String ArticleRec :=
  match article? with
  | some a =>
    if a.textContent ≠ "" && decide (0 < a.textContent.length) then
      .ok ⟨jsOrStr a.title "Untitled", a.textContent, a.content,
        jsOrNull a.byline, jsOrNull a.excerpt,
        natOr a.length (if a.textContent = "" then 0 else a.textContent.length)⟩
    else lastResort doc
  | none => lastResort doc

/-- The aggressive-tier step of `extractContent`: accept an aggressive result
whose text is longer than the configured minimum, otherwise fall through. -/
def afterFallback (minContentLength : Nat) (article? : Option RArticle)
    (doc : DomDocument) : Except String ArticleRec :=
  match extractAggressively minContentLength doc with
  | some ag =>
    if ag.text ≠ "" && decide (minContentLength < ag.text.length) then .ok ag
    else afterAggressive article? doc
  | none => afterAggressive article? doc

/-- The fallback chain entered when Readability failed or produced text below
the minimum: selector fallback, then aggressive salvage, then the short
Readability result, then the last-resort scrape. -/
def fallbackChain (minContentLength : Nat) (article? : Option RArticle)
    (doc : DomDocument) (fallbackTitle : String) : Except String ArticleRec :=
  match extractWithFallback doc fallbackTitle with
  | some f =>
    if f.text ≠ "" && decide (0 < f.text.length) then .ok f
    else afterFallback minContentLength article? doc
  | none => afterFallback minContentLength article? doc

/-- `ContentProcessor.extractContent`: `html` is the raw input (only its
emptiness guard matters in the pure model), `article?` is the Readability
oracle on that html, `doc` the jsdom oracle, `fallbackTitle` the hostname
oracle. Errors model thrown exceptions. -/
def extractContent (minContentLength : Nat) (html : String)
    (article? : Option RArticle) (doc : DomDocument) (fallbackTitle : String) :
    Except String ArticleRec :=
  if html = "" then .error "Invalid HTML input"
  else
    match article? with
    | some a =>
      if a.textContent ≠ "" && decide (minContentLength ≤ a.textContent.length) then
        .ok ⟨jsOrStr a.title "Untitled", a.textContent, a.content,
          jsOrNull a.byline, jsOrNull a.excerpt, natOr a.length 0⟩
      else fallbackChain minContentLength article? doc fallbackTitle
    | none => fallbackChain minContentLength article? doc fallbackTitle

end ContentProcessor

/-- Amended claim C8 as a specification function over the DOM oracle: take
the first candidate selector whose element has more than 2 paragraphs or
more than 200 characters of trimmed text; collect its trimmed paragraph
texts longer than 30 characters that do not contain "subscribe" (the
"cookie" phrase is not excluded on this path) and succeed with their joined
text when it has at least 50 characters; when no container paragraph passes
that filter, succeed instead with the container's raw trimmed text whenever
it exceeds 100 characters; when no container matched at all, collect
page-wide trimmed paragraph texts longer than 50 characters containing
neither "subscribe" nor "cookie", with the same 50-character floor on the
joined text; in every other case return nothing. -/
def selectorFallbackSpecText (doc : DomDocument) : Option String :=
  match ContentProcessor.pickContainer doc with
  | some el =>
    let texts := (el.paras.map (fun p => jsTrim p.textContent)).filter
      (fun t => decide (30 < t.length) && !(containsLower t "subscribe"))
    if texts.isEmpty then
      let containerText := jsTrim el.textContent
      if decide (100 < containerText.length) then some containerText else none
    else
      let joined := joinSep "\n\n" texts
      if 50 ≤ joined.length then some joined else none
  | none =>
    let texts := (doc.allParas.map (fun p => jsTrim p.textContent)).filter
      (fun t => decide (50 < t.length) && !(containsLower t "subscribe") &&
        !(containsLower t "cookie"))
    if texts.isEmpty then none
    else
      let joined := joinSep "\n\n" texts
      if 50 ≤ joined.length then some joined else none


/-- Html with a bot-challenge marker ("just a moment") and a paywall marker
("subscribe now"). -/
def botPayHtml : String :=
  "<html><body>just a moment - checking access. subscribe now for full access.</body></html>"

/-- Html whose only notable feature is a paywall marker. -/
def pwHtml : String := "<div>subscribe now</div>"

/-- A substantial paragraph (more than 50 characters, no filtered phrase). -/
def paraOne : String :=
  "The committee reviewed the quarterly results in detail during the morning session."

/-- A second substantial paragraph. -/
def paraTwo : String :=
  "Analysts noted a steady improvement in regional market conditions over the year."

/-- A third substantial paragraph. -/
def paraThree : String :=
  "Executives outlined a cautious investment plan for the coming twelve months."

/-- Archived-looking html with a paywall marker, three substantial
paragraphs, and the JS-block marker "please enable js". -/
def jsBlockHtml : String :=
  "<html><body>please enable js<p>" ++ paraOne ++ "</p><p>" ++ paraTwo ++
    "</p><p>" ++ paraThree ++ "</p>subscribe now</body></html>"

/-- Archived-looking html with a paywall marker and three substantial
paragraphs but no JS-block marker. -/
def lenientHtml : String :=
  "<article><p>" ++ paraOne ++ "</p><p>" ++ paraTwo ++ "</p><p>" ++ paraThree ++
    "</p></article><div>subscribe now</div>"

/-- A paragraph mentioning cookies (longer than 50 characters, no
"subscribe"). -/
def cookieParaText : String :=
  "We use cookie technology across this archived page to keep reader settings stable for every visitor."

/-- A container element whose only paragraph is the cookie paragraph and
whose text content passes the 200-character gate. -/
def cookieEl : DomElement :=
  { paras := [{ textContent := cookieParaText, outerHTML := "<p>c</p>" }]
    textContent := cookieParaText ++ " " ++ cookieParaText ++ " " ++ cookieParaText }

/-- A document whose `article` selector yields `cookieEl`. -/
def cookieDoc : DomDocument :=
  { querySel := fun sel => if sel = "article" then some cookieEl else none
    querySelAll := fun _ => []
    allParas := []
    h1Text := none
    titleText := none
    authorText := none
    metaDescription := none }

/-- A container element with two plain substantial paragraphs. -/
def plainEl : DomElement :=
  { paras := [{ textContent := paraOne, outerHTML := "<p>1</p>" },
              { textContent := paraTwo, outerHTML := "<p>2</p>" }]
    textContent := paraOne ++ " " ++ paraTwo ++ " " ++ paraThree }

/-- A document whose `article` selector yields `plainEl`. -/
def plainDoc : DomDocument :=
  { querySel := fun sel => if sel = "article" then some plainEl else none
    querySelAll := fun _ => []
    allParas := []
    h1Text := none
    titleText := none
    authorText := none
    metaDescription := none }

/-- The article record `extractWithFallback` returns for `plainDoc`. -/
def plainRec : ArticleRec :=
  ⟨"host", paraOne ++ "\n\n" ++ paraTwo,
   ContentProcessor.wrapDiv "<p>1</p><p>2</p>", none, none,
   (paraOne ++ "\n\n" ++ paraTwo).length⟩

/-- A document on which every DOM query comes back empty. -/
def trivialDoc : DomDocument :=
  { querySel := fun _ => none
    querySelAll := fun _ => []
    allParas := []
    h1Text := none
    titleText := none
    authorText := none
    metaDescription := none }

/-- A Readability result whose text is below the default 20-character
minimum but non-empty. -/
def shortArticle : RArticle :=
  ⟨"Note", "short text", "<div>short text</div>", none, none, 10⟩

/-- A Readability result comfortably above the default minimum. -/
def goodArticle : RArticle :=
  ⟨"Report", paraOne, "<div>body</div>", some "Ann Writer", none, paraOne.length⟩

/-- The record the pipeline returns for `shortArticle` through the
short-structured ("final attempt") path. -/
def shortRec : ArticleRec :=
  ⟨"Note", "short text", "<div>short text</div>", none, none, 10⟩

/-- The record the pipeline returns for `goodArticle` through the structured
success path. -/
def goodRec : ArticleRec :=
  ⟨"Report", paraOne, "<div>body</div>", some "Ann Writer", none, paraOne.length⟩

/-- A substantial valid archive body (1100 characters). -/
def archiveGoodHtml : String := ⟨List.replicate 1100 'a'⟩

/-- A snapshot-fetch oracle for which every GET succeeds with a valid body. -/
def constFetch : String → Option String := fun _ => some archiveGoodHtml

theorem string_length_pos {s : String} (h : ¬ s = "") : 0 < s.length := by
  cases s with
  | mk data =>
    cases data with
    | nil => exact absurd rfl h
    | cons c cs => simp [String.length]

theorem string_ne_empty_of_length_pos {s : String} (h : 0 < s.length) : ¬ s = "" := by
  intro he
  subst he
  simp [String.length] at h

theorem joinSep_head_le (sep a : String) (l : List String) :
    a.length ≤ (joinSep sep (a :: l)).length := by
  cases l with
  | nil => simp [joinSep]
  | cons b t => simp [joinSep, String.length_append]; omega

theorem containsList_head_mem {c : Char} {p l : List Char}
    (h : containsList (c :: p) l = true) : c ∈ l := by
  induction l with
  | nil => simp [containsList] at h
  | cons d rest ih =>
    rw [containsList, Bool.or_eq_true] at h
    rcases h with h | h
    · simp only [List.isPrefixOf, Bool.and_eq_true, beq_iff_eq] at h
      simp [h.1]
    · exact List.mem_cons_of_mem _ (ih h)

theorem natOr_zero (n : Nat) : natOr n 0 = n := by
  unfold natOr
  split <;> omega

theorem natOr_self (n : Nat) : natOr n n = n := by
  unfold natOr
  split <;> rfl

theorem map_fst_filter (P : String → Bool) (l : List (String × String)) :
    (l.filter (fun e => P e.fst)).map Prod.fst = (l.map Prod.fst).filter P := by
  induction l with
  | nil => rfl
  | cons a t ih =>
    by_cases h : P a.fst = true
    · simp [List.filter_cons, h, ih]
    · simp only [Bool.not_eq_true] at h
      simp [List.filter_cons, h, ih]

/-- Claim C9: the paywall/bot-block detector is total on invalid input —
for every value that is null, undefined, or not a string, both
`CookieService.hasPaywall` and `ContentProcessor.hasPaywall` return `false`
without raising an error. -/
theorem hasPaywall_total_on_invalid_input (v : JSVal) (h : ∀ s, v ≠ JSVal.str s) :
    CookieService.hasPaywallJS v = false ∧ ContentProcessor.hasPaywallJS v = false := by
  cases v with
  | str s => exact absurd rfl (h s)
  | jsNull => exact ⟨rfl, rfl⟩
  | undef => exact ⟨rfl, rfl⟩
  | num n => exact ⟨rfl, rfl⟩
  | boolean b => exact ⟨rfl, rfl⟩
  | obj => exact ⟨rfl, rfl⟩

theorem hasPaywall_total_on_invalid_input_witness :
    CookieService.hasPaywallJS JSVal.jsNull = false ∧
      ContentProcessor.hasPaywallJS JSVal.jsNull = false :=
  hasPaywall_total_on_invalid_input JSVal.jsNull (fun _ h => JSVal.noConfusion h)

/-- Claim C3, counterexample: on html containing both a bot-challenge marker
("just a moment") and a paywall marker ("subscribe now"), the code does not
produce a `botBlocked=true, paywalled=false` verdict; its single-boolean
classifier returns `true` and the orchestration loop records the rejection
as "Paywall detected", i.e. the input is classified as paywalled. -/
theorem bot_block_reported_as_paywall_cex :
    (∃ b ∈ CookieService.botProtectionIndicators, containsLower botPayHtml b = true) ∧
    (∃ p ∈ CookieService.paywallIndicators, containsLower botPayHtml p = true) ∧
    CookieService.hasPaywall botPayHtml = true ∧
    WSJService.stepOutcome ⟨"search-engine", .returned (some botPayHtml)⟩ =
      .record "Paywall detected (method: search-engine)" := by
  refine ⟨⟨"just a moment", by decide, by decide⟩,
    ⟨"subscribe now", by decide, by decide⟩, by decide, by decide⟩

/-- Claim C3, amended: the bot-protection indicator set is checked first and
a positive match short-circuits — the result does not depend on the paywall
indicator set, which is never evaluated — but the match is reported through
the single flag `hasPaywall = true` (treated as a paywall), not as a
separate `botBlocked=true, paywalled=false` verdict. -/
theorem bot_check_short_circuit (html : String)
    (hbot : ∃ b ∈ CookieService.botProtectionIndicators, containsLower html b = true) :
    (∀ pays : List String,
      CookieService.hasPaywallCore CookieService.botProtectionIndicators pays html = true) ∧
    CookieService.hasPaywall html = true := by
  obtain ⟨b, hmem, hc⟩ := hbot
  have hany : CookieService.botProtectionIndicators.any
      (fun i => containsList (lowerStr i).data (lowerStr html).data) = true := by
    rw [List.any_eq_true]
    exact ⟨b, hmem, hc⟩
  constructor
  · intro pays
    simp only [CookieService.hasPaywallCore, hany]
    rfl
  · show CookieService.hasPaywallCore _ _ html = true
    simp only [CookieService.hasPaywallCore, hany]
    rfl

theorem bot_check_short_circuit_witness :
    CookieService.hasPaywallCore CookieService.botProtectionIndicators [] botPayHtml = true ∧
    CookieService.hasPaywall botPayHtml = true :=
  ⟨(bot_check_short_circuit botPayHtml ⟨"just a moment", by decide, by decide⟩).1 [],
   (bot_check_short_circuit botPayHtml ⟨"just a moment", by decide, by decide⟩).2⟩

theorem wsj_fetchLoop_all_record (steps : List MethodStep) (st : MethodStep)
    (hall : steps.all (fun x => (WSJService.stepOutcome x).isRecord) = true)
    (hlast : steps.getLast? = some st) :
    ∀ le, WSJService.fetchLoop le steps =
      .error ("WSJ fetch failed: " ++ (WSJService.stepOutcome st).msgOr "") := by
  induction steps with
  | nil => simp at hlast
  | cons a rest ih =>
    intro le
    rw [List.all_cons, Bool.and_eq_true] at hall
    obtain ⟨ha, hrest⟩ := hall
    match hso : WSJService.stepOutcome a with
    | .accept h => rw [hso] at ha; simp [StepOutcome.isRecord] at ha
    | .record m =>
      rw [WSJService.fetchLoop, hso]
      cases rest with
      | nil =>
        simp only [List.getLast?_singleton, Option.some.injEq] at hlast
        subst hlast
        simp [WSJService.fetchLoop, hso, StepOutcome.msgOr]
      | cons b t =>
        rw [List.getLast?_cons_cons] at hlast
        exact ih hrest hlast (some m)

/-- Claim C6: when every strategy in the WSJ orchestration loop is rejected,
the terminal error carries exactly the failure recorded for the most recent
(last) strategy, not the first or the full history. -/
theorem terminal_error_reports_last_failure (steps : List MethodStep) (st : MethodStep)
    (hall : steps.all (fun x => (WSJService.stepOutcome x).isRecord) = true)
    (hlast : steps.getLast? = some st) :
    WSJService.fetchArticle steps =
      .error ("WSJ fetch failed: " ++ (WSJService.stepOutcome st).msgOr "") :=
  wsj_fetchLoop_all_record steps st hall hlast none

theorem terminal_error_reports_last_failure_witness :
    WSJService.fetchArticle
      [⟨"cookie-clearing", .threw "NetworkError"⟩,
       ⟨"search-engine", .returned (some pwHtml)⟩,
       ⟨"headless", .threw "Timeout"⟩] =
      .error "WSJ fetch failed: Timeout" := by
  have h := terminal_error_reports_last_failure
    [⟨"cookie-clearing", .threw "NetworkError"⟩,
     ⟨"search-engine", .returned (some pwHtml)⟩,
     ⟨"headless", .threw "Timeout"⟩]
    ⟨"headless", .threw "Timeout"⟩ (by decide) (by decide)
  exact h

theorem nyt_fetchLoop_append_accept (pre : List MethodStep) (st : MethodStep) (s : String)
    (hall : pre.all (fun x => (NYTimesService.stepOutcome x).isRecord) = true)
    (hst : NYTimesService.stepOutcome st = .accept s) :
    ∀ le, NYTimesService.fetchLoop le (pre ++ [st]) = .ok s := by
  induction pre with
  | nil =>
    intro le
    rw [List.nil_append, NYTimesService.fetchLoop, hst]
  | cons a rest ih =>
    intro le
    rw [List.all_cons, Bool.and_eq_true] at hall
    obtain ⟨ha, hrest⟩ := hall
    match hso : NYTimesService.stepOutcome a with
    | .accept h => rw [hso] at ha; simp [StepOutcome.isRecord] at ha
    | .record m =>
      rw [List.cons_append, NYTimesService.fetchLoop, hso]
      exact ih hrest (some m)

/-- Claim C7: whenever the rendered-fetch (headless) strategy returns
non-empty html, the orchestration loop accepts it and hands it to extraction
regardless of any bot-block or paywall indicators it contains (in both the
NYT and WSJ loops); rendered output is rejected only when it is empty. -/
theorem headless_nonempty_always_accepted (pre : List MethodStep) (s : String)
    (hall : pre.all (fun x => (NYTimesService.stepOutcome x).isRecord) = true)
    (hne : ¬ s = "") :
    NYTimesService.fetchArticle (pre ++ [⟨"headless", .returned (some s)⟩]) = .ok s ∧
    WSJService.stepOutcome ⟨"headless", .returned (some s)⟩ = .accept s ∧
    NYTimesService.stepOutcome ⟨"headless", .returned (some "")⟩ =
      .record "Empty HTML received (method: headless)" ∧
    NYTimesService.stepOutcome ⟨"headless", .returned none⟩ =
      .record "Empty HTML received (method: headless)" := by
  have hacc : NYTimesService.stepOutcome ⟨"headless", .returned (some s)⟩ = .accept s := by
    simp [NYTimesService.stepOutcome, hne]
  refine ⟨nyt_fetchLoop_append_accept pre _ s hall hacc none, ?_, by decide, by decide⟩
  simp [WSJService.stepOutcome, hne]

theorem headless_nonempty_always_accepted_witness :
    NYTimesService.fetchArticle
      [⟨"cookie-clearing", .threw "NetworkError"⟩,
       ⟨"search-engine", .returned (some pwHtml)⟩,
       ⟨"headless", .returned (some botPayHtml)⟩] = .ok botPayHtml := by
  have h := headless_nonempty_always_accepted
    [⟨"cookie-clearing", .threw "NetworkError"⟩,
     ⟨"search-engine", .returned (some pwHtml)⟩]
    botPayHtml (by decide) (by decide)
  exact h.1

theorem wsj_fetchLoop_append_accept (pre : List MethodStep) (st : MethodStep) (s : String)
    (hall : pre.all (fun x => (WSJService.stepOutcome x).isRecord) = true)
    (hst : WSJService.stepOutcome st = .accept s) :
    ∀ le, WSJService.fetchLoop le (pre ++ [st]) = .ok s := by
  induction pre with
  | nil =>
    intro le
    rw [List.nil_append, WSJService.fetchLoop, hst]
  | cons a rest ih =>
    intro le
    rw [List.all_cons, Bool.and_eq_true] at hall
    obtain ⟨ha, hrest⟩ := hall
    match hso : WSJService.stepOutcome a with
    | .accept h => rw [hso] at ha; simp [StepOutcome.isRecord] at ha
    | .record m =>
      rw [List.cons_append, WSJService.fetchLoop, hso]
      exact ih hrest (some m)

/-- Claim C2, counterexample: html that contains a paywall indicator
("subscribe now") and three paragraphs of more than 50 characters each, but
also the JS-block marker "please enable js", is rejected by the WSJ loop at
the lenient archive strategy (recorded as "JS rendering required") instead
of being accepted and handed to extraction. -/
theorem lenient_archive_jsblock_cex :
    (∃ ind ∈ CookieService.paywallIndicators, containsLower jsBlockHtml ind = true) ∧
    containsStr jsBlockHtml paraOne = true ∧ 50 < paraOne.length ∧
    containsStr jsBlockHtml paraTwo = true ∧ 50 < paraTwo.length ∧
    containsStr jsBlockHtml paraThree = true ∧ 50 < paraThree.length ∧
    WSJService.fetchArticle [⟨"archive", .returned (some jsBlockHtml)⟩] =
      .error "WSJ fetch failed: JS rendering required (method: archive)" := by
  refine ⟨⟨"subscribe now", by decide, by decide⟩, by decide, by decide, by decide,
    by decide, by decide, by decide, by decide⟩

/-- Claim C2, amended: for the lenient archive strategy, html containing a
paywall indicator alongside at least three substantial paragraphs is
accepted by the WSJ orchestration loop and handed to extraction provided it
is non-empty and does not contain the JS-block marker "please enable js";
paywall indicators alone never cause rejection of archive output. -/
theorem lenient_archive_accepts_paywalled (pre : List MethodStep) (s : String)
    (hall : pre.all (fun x => (WSJService.stepOutcome x).isRecord) = true)
    (_hpw : ∃ ind ∈ CookieService.paywallIndicators, containsLower s ind = true)
    (hne : ¬ s = "")
    (hjs : containsLower s "please enable js" = false) :
    WSJService.fetchArticle (pre ++ [⟨"archive", .returned (some s)⟩]) = .ok s := by
  have hacc : WSJService.stepOutcome ⟨"archive", .returned (some s)⟩ = .accept s := by
    simp [WSJService.stepOutcome, hne, hjs]
  exact wsj_fetchLoop_append_accept pre _ s hall hacc none

theorem lenient_archive_accepts_paywalled_witness :
    WSJService.fetchArticle
      [⟨"cookie-clearing", .threw "NetworkError"⟩,
       ⟨"search-engine", .returned (some pwHtml)⟩,
       ⟨"headless", .threw "Timeout"⟩,
       ⟨"archive", .returned (some lenientHtml)⟩] = .ok lenientHtml := by
  have h := lenient_archive_accepts_paywalled
    [⟨"cookie-clearing", .threw "NetworkError"⟩,
     ⟨"search-engine", .returned (some pwHtml)⟩,
     ⟨"headless", .threw "Timeout"⟩]
    lenientHtml (by decide) ⟨"subscribe now", by decide, by decide⟩ (by decide) (by decide)
  exact h

/-- Claim C1, amended: with the older-first policy the visit order retains
exactly the snapshots strictly older than the cutoff, sorted descending
(most recent of the old first); but when the retained set is empty the
source visits no snapshot at all and `fetchFromArchive` returns null — there
is no fallback to the full unfiltered list. -/
theorem archive_older_first_selection (ts : List String) (cutoff : String) :
    (∀ t, t ∈ ArchiveService.timestampsToTry ts true cutoff ↔
      (t ∈ ts ∧ t.data < cutoff.data)) ∧
    List.Pairwise (fun a b : String => b.data ≤ a.data)
      (ArchiveService.timestampsToTry ts true cutoff) ∧
    (ts.filter (fun t => strLtB t cutoff) = [] →
      ∀ fetch, ArchiveService.fetchFromArchive ts true cutoff fetch = none) := by
  refine ⟨?_, ?_, ?_⟩
  · intro t
    simp [ArchiveService.timestampsToTry, List.mem_reverse, List.mem_mergeSort,
      List.mem_filter, strLtB]
  · have hs := @List.sorted_mergeSort String (fun a b : String => strLeB a b)
      (fun a b c hab hbc => by
        simp only [strLeB, decide_eq_true_eq] at *
        exact le_trans hab hbc)
      (fun a b => by
        simp only [strLeB, Bool.or_eq_true, decide_eq_true_eq]
        exact le_total a.data b.data)
      (ts.filter (fun t => strLtB t cutoff))
    have hs' : ((ts.filter (fun t => strLtB t cutoff)).mergeSort
        (fun a b : String => strLeB a b)).Pairwise
        (fun a b : String => a.data ≤ b.data) :=
      hs.imp (fun h => of_decide_eq_true h)
    rw [ArchiveService.timestampsToTry]
    simp only [if_pos]
    exact List.pairwise_reverse.mpr hs'
  · intro h fetch
    rw [ArchiveService.fetchFromArchive]
    split
    · rfl
    · rw [ArchiveService.timestampsToTry]
      simp only [if_pos, h, List.mergeSort_nil, List.reverse_nil]
      rfl

theorem archive_older_first_selection_witness :
    ("20250201000000" ∈ ArchiveService.timestampsToTry
        ["20240901000000", "20250201000000", "20250801000000"] true "20250411000000" ↔
      ("20250201000000" ∈ (["20240901000000", "20250201000000", "20250801000000"] : List String) ∧
        ("20250201000000" : String).data < ("20250411000000" : String).data)) ∧
    ArchiveService.fetchFromArchive ["20250801000000"] true "20250411000000" constFetch = none :=
  ⟨(archive_older_first_selection _ _).1 _,
   (archive_older_first_selection _ _).2.2 (by decide) constFetch⟩

theorem archiveGoodHtml_valid : ArchiveService.validArchiveHtml archiveGoodHtml = true := by
  have hlen : archiveGoodHtml.length = 1100 := by
    show (List.replicate 1100 'a').length = 1100
    simp
  have hdata : ("Wayback Machine doesn\x27t have that page archived" : String).data =
      'W' :: ("ayback Machine doesn\x27t have that page archived" : String).data := rfl
  have hcon : containsStr archiveGoodHtml
      "Wayback Machine doesn\x27t have that page archived" = false := by
    rw [containsStr]
    cases hc : containsList ("Wayback Machine doesn\x27t have that page archived" : String).data
        archiveGoodHtml.data with
    | false => rfl
    | true =>
      rw [hdata] at hc
      have hmem := containsList_head_mem hc
      rw [show archiveGoodHtml.data = List.replicate 1100 'a' from rfl] at hmem
      rw [List.mem_replicate] at hmem
      exact absurd hmem.2 (by decide)
  rw [ArchiveService.validArchiveHtml, hcon, hlen]
  decide

/-- Claim C1, counterexample: two snapshots both younger than the cutoff,
older-first policy. The claim predicts a fallback visiting the full list
newest first (which would succeed, as the newer-first run shows), but the
source retains nothing, visits nothing and returns null. -/
theorem archive_older_first_no_fallback_cex :
    (["20250801000000", "20250901000000"] : List String) ≠ [] ∧
    ArchiveService.timestampsToTry ["20250801000000", "20250901000000"] true
      "20250411000000" = [] ∧
    ArchiveService.fetchFromArchive ["20250801000000", "20250901000000"] true
      "20250411000000" constFetch = none ∧
    ArchiveService.validArchiveHtml archiveGoodHtml = true ∧
    ArchiveService.fetchFromArchive ["20250801000000", "20250901000000"] false
      "20250411000000" constFetch = some ⟨archiveGoodHtml, "20250901000000"⟩ := by
  have hfil : (["20250801000000", "20250901000000"] : List String).filter
      (fun t => strLtB t "20250411000000") = [] := by decide
  have h2 : ArchiveService.timestampsToTry ["20250801000000", "20250901000000"] true
      "20250411000000" = [] := by
    rw [ArchiveService.timestampsToTry]
    simp only [if_pos, hfil, List.mergeSort_nil, List.reverse_nil]
  refine ⟨by decide, h2, ?_, archiveGoodHtml_valid, ?_⟩
  · rw [ArchiveService.fetchFromArchive]
    split
    · rfl
    · rw [h2]
      rfl
  · rw [ArchiveService.fetchFromArchive]
    split
    · simp at *
    · rw [ArchiveService.timestampsToTry]
      simp only [Bool.false_eq_true, if_false, List.reverse_cons, List.reverse_nil,
        List.nil_append, List.cons_append]
      rw [ArchiveService.tryTimestamps]
      simp only [constFetch, archiveGoodHtml_valid, if_pos]

theorem extractWithFallback_some {doc : DomDocument} {ft : String} {r : ArticleRec}
    (h : ContentProcessor.extractWithFallback doc ft = some r) :
    r.length = r.text.length ∧ ¬ r.text = "" ∧ 50 ≤ r.text.length := by
  simp only [ContentProcessor.extractWithFallback] at h
  split at h
  · exact absurd h (by simp)
  · rename_i hc
    rw [Option.some.injEq] at h
    subst h
    simp only [Bool.or_eq_true, decide_eq_true_eq, not_or] at hc
    refine ⟨rfl, hc.1, ?_⟩
    show 50 ≤ (ContentProcessor.fallbackTextHtml doc).1.length
    omega

theorem extractAggressively_some {mcl : Nat} {doc : DomDocument} {r : ArticleRec}
    (h : ContentProcessor.extractAggressively mcl doc = some r) :
    r.length = r.text.length := by
  simp only [ContentProcessor.extractAggressively] at h
  split at h
  · split at h
    · simp at h
    · rw [Option.some.injEq] at h
      subst h
      rfl
  · split at h
    · simp at h
    · rw [Option.some.injEq] at h
      subst h
      rfl

theorem lastResort_ok {doc : DomDocument} {r : ArticleRec}
    (h : ContentProcessor.lastResort doc = .ok r) :
    r.length = r.text.length ∧ ¬ r.text = "" := by
  simp only [ContentProcessor.lastResort] at h
  rcases hL : (doc.allParas.map (fun p => jsTrim p.textContent)).filter
      (fun t => decide (50 < t.length)) with _ | ⟨t, ts⟩
  · rw [hL] at h
    simp at h
  · rw [hL] at h
    simp only [List.isEmpty_cons, Bool.false_eq_true, if_false] at h
    rw [Except.ok.injEq] at h
    subst h
    refine ⟨rfl, ?_⟩
    have ht : t ∈ (doc.allParas.map (fun p => jsTrim p.textContent)).filter
        (fun s => decide (50 < s.length)) := by
      rw [hL]
      exact List.mem_cons_self t ts
    have h50 : 50 < t.length := of_decide_eq_true (List.mem_filter.1 ht).2
    have hle := joinSep_head_le "\n\n" t ts
    show ¬ joinSep "\n\n" (t :: ts) = ""
    exact string_ne_empty_of_length_pos (by omega)

theorem afterAggressive_ok {article? : Option RArticle} {doc : DomDocument} {r : ArticleRec}
    (hwf : ∀ a, article? = some a → a.length = a.textContent.length)
    (h : ContentProcessor.afterAggressive article? doc = .ok r) :
    r.length = r.text.length ∧ ¬ r.text = "" := by
  cases article? with
  | none =>
    exact lastResort_ok (by simpa [ContentProcessor.afterAggressive] using h)
  | some a =>
    simp only [ContentProcessor.afterAggressive] at h
    split at h
    · rename_i hc
      rw [Except.ok.injEq] at h
      subst h
      simp only [Bool.and_eq_true, decide_eq_true_eq] at hc
      refine ⟨?_, hc.1⟩
      show natOr a.length (if a.textContent = "" then 0 else a.textContent.length) =
        a.textContent.length
      rw [if_neg hc.1, hwf a rfl, natOr_self]
    · exact lastResort_ok h

theorem afterFallback_ok {mcl : Nat} {article? : Option RArticle} {doc : DomDocument}
    {r : ArticleRec}
    (hwf : ∀ a, article? = some a → a.length = a.textContent.length)
    (h : ContentProcessor.afterFallback mcl article? doc = .ok r) :
    r.length = r.text.length ∧ ¬ r.text = "" := by
  rcases hag : ContentProcessor.extractAggressively mcl doc with _ | ag
  · simp only [ContentProcessor.afterFallback, hag] at h
    exact afterAggressive_ok hwf h
  · simp only [ContentProcessor.afterFallback, hag] at h
    split at h
    · rename_i hc
      rw [Except.ok.injEq] at h
      subst h
      simp only [Bool.and_eq_true, decide_eq_true_eq] at hc
      exact ⟨extractAggressively_some hag, hc.1⟩
    · exact afterAggressive_ok hwf h

theorem fallbackChain_ok {mcl : Nat} {article? : Option RArticle} {doc : DomDocument}
    {ft : String} {r : ArticleRec}
    (hwf : ∀ a, article? = some a → a.length = a.textContent.length)
    (h : ContentProcessor.fallbackChain mcl article? doc ft = .ok r) :
    r.length = r.text.length ∧ ¬ r.text = "" := by
  rcases hfb : ContentProcessor.extractWithFallback doc ft with _ | f
  · simp only [ContentProcessor.fallbackChain, hfb] at h
    exact afterFallback_ok hwf h
  · simp only [ContentProcessor.fallbackChain, hfb] at h
    split at h
    · rename_i hc
      rw [Except.ok.injEq] at h
      subst h
      simp only [Bool.and_eq_true, decide_eq_true_eq] at hc
      exact ⟨(extractWithFallback_some hfb).1, hc.1⟩
    · exact afterFallback_ok hwf h

theorem extractContent_ok {mcl : Nat} {html : String} {article? : Option RArticle}
    {doc : DomDocument} {ft : String} {r : ArticleRec}
    (hwf : ∀ a, article? = some a → a.length = a.textContent.length)
    (h : ContentProcessor.extractContent mcl html article? doc ft = .ok r) :
    r.length = r.text.length ∧ ¬ r.text = "" := by
  cases article? with
  | none =>
    simp only [ContentProcessor.extractContent] at h
    split at h
    · exact absurd h (by simp)
    · exact fallbackChain_ok hwf h
  | some a =>
    simp only [ContentProcessor.extractContent] at h
    split at h
    · exact absurd h (by simp)
    · split at h
      · rename_i hc
        rw [Except.ok.injEq] at h
        subst h
        simp only [Bool.and_eq_true, decide_eq_true_eq] at hc
        refine ⟨?_, hc.1⟩
        show natOr a.length 0 = a.textContent.length
        rw [natOr_zero, hwf a rfl]
      · exact fallbackChain_ok hwf h

theorem afterAggressive_ne {article? : Option RArticle} {doc : DomDocument} {r : ArticleRec}
    (h : ContentProcessor.afterAggressive article? doc = .ok r) : ¬ r.text = "" := by
  cases article? with
  | none =>
    exact (lastResort_ok (by simpa [ContentProcessor.afterAggressive] using h)).2
  | some a =>
    simp only [ContentProcessor.afterAggressive] at h
    split at h
    · rename_i hc
      rw [Except.ok.injEq] at h
      subst h
      simp only [Bool.and_eq_true, decide_eq_true_eq] at hc
      exact hc.1
    · exact (lastResort_ok h).2

theorem afterFallback_ne {mcl : Nat} {article? : Option RArticle} {doc : DomDocument}
    {r : ArticleRec}
    (h : ContentProcessor.afterFallback mcl article? doc = .ok r) : ¬ r.text = "" := by
  rcases hag : ContentProcessor.extractAggressively mcl doc with _ | ag
  · simp only [ContentProcessor.afterFallback, hag] at h
    exact afterAggressive_ne h
  · simp only [ContentProcessor.afterFallback, hag] at h
    split at h
    · rename_i hc
      rw [Except.ok.injEq] at h
      subst h
      simp only [Bool.and_eq_true, decide_eq_true_eq] at hc
      exact hc.1
    · exact afterAggressive_ne h

theorem fallbackChain_ne {mcl : Nat} {article? : Option RArticle} {doc : DomDocument}
    {ft : String} {r : ArticleRec}
    (h : ContentProcessor.fallbackChain mcl article? doc ft = .ok r) : ¬ r.text = "" := by
  rcases hfb : ContentProcessor.extractWithFallback doc ft with _ | f
  · simp only [ContentProcessor.fallbackChain, hfb] at h
    exact afterFallback_ne h
  · simp only [ContentProcessor.fallbackChain, hfb] at h
    split at h
    · rename_i hc
      rw [Except.ok.injEq] at h
      subst h
      simp only [Bool.and_eq_true, decide_eq_true_eq] at hc
      exact hc.1
    · exact afterFallback_ne h

theorem extractContent_ne {mcl : Nat} {html : String} {article? : Option RArticle}
    {doc : DomDocument} {ft : String} {r : ArticleRec}
    (h : ContentProcessor.extractContent mcl html article? doc ft = .ok r) :
    ¬ r.text = "" := by
  cases article? with
  | none =>
    simp only [ContentProcessor.extractContent] at h
    split at h
    · exact absurd h (by simp)
    · exact fallbackChain_ne h
  | some a =>
    simp only [ContentProcessor.extractContent] at h
    split at h
    · exact absurd h (by simp)
    · split at h
      · rename_i hc
        rw [Except.ok.injEq] at h
        subst h
        simp only [Bool.and_eq_true, decide_eq_true_eq] at hc
        exact hc.1
      · exact fallbackChain_ne h

/-- Claim C4: every article record returned by the extraction pipeline
satisfies `length = character-count(text)` on every return path, given the
external Readability collaborator's contract that its own `length` field is
the character count of its `textContent`. -/
theorem articleRecord_length_invariant (mcl : Nat) (html : String)
    (article? : Option RArticle) (doc : DomDocument) (ft : String) (r : ArticleRec)
    (hwf : ∀ a, article? = some a → a.length = a.textContent.length)
    (hok : ContentProcessor.extractContent mcl html article? doc ft = .ok r) :
    r.length = r.text.length :=
  (extractContent_ok hwf hok).1

theorem articleRecord_length_invariant_witness :
    goodRec.length = goodRec.text.length :=
  articleRecord_length_invariant 20 "<html>x</html>" (some goodArticle) trivialDoc "t"
    goodRec
    (fun a h => by
      rw [Option.some.injEq] at h
      subst h
      rfl)
    (by decide)

/-- Claim C10: under the default minimum content length of 20 characters,
every article record successfully returned by `extractContent` has a
non-empty `text` field — each return path is guarded by a positive-length
condition. -/
theorem extractContent_text_nonempty (html : String) (article? : Option RArticle)
    (doc : DomDocument) (ft : String) (r : ArticleRec)
    (hok : ContentProcessor.extractContent 20 html article? doc ft = .ok r) :
    ¬ r.text = "" :=
  extractContent_ne hok

theorem extractContent_text_nonempty_witness : ¬ shortRec.text = "" :=
  extractContent_text_nonempty "<html>x</html>" (some shortArticle) trivialDoc "t"
    shortRec (by decide)

/-- Claim C5: if structured extraction (tier 1) produced some non-empty text
below its acceptance threshold and both the selector fallback and the
aggressive salvage produce nothing, the pipeline still returns tier 1's
non-empty output rather than failing with an extraction error. -/
theorem tier1_nonempty_preserved (mcl : Nat) (html : String) (a : RArticle)
    (doc : DomDocument) (ft : String)
    (hhtml : ¬ html = "")
    (hne : ¬ a.textContent = "")
    (hshort : a.textContent.length < mcl)
    (hfb : ContentProcessor.extractWithFallback doc ft = none)
    (hag : ContentProcessor.extractAggressively mcl doc = none) :
    ∃ r, ContentProcessor.extractContent mcl html (some a) doc ft = .ok r ∧
      r.text = a.textContent := by
  refine ⟨⟨jsOrStr a.title "Untitled", a.textContent, a.content, jsOrNull a.byline,
    jsOrNull a.excerpt,
    natOr a.length (if a.textContent = "" then 0 else a.textContent.length)⟩, ?_, rfl⟩
  simp only [ContentProcessor.extractContent]
  rw [if_neg hhtml, if_neg ?hcond]
  case hcond =>
    intro hcontr
    rw [Bool.and_eq_true] at hcontr
    exact absurd (of_decide_eq_true hcontr.2) (by omega)
  simp only [ContentProcessor.fallbackChain, hfb, ContentProcessor.afterFallback, hag,
    ContentProcessor.afterAggressive]
  rw [if_pos]
  rw [Bool.and_eq_true]
  exact ⟨decide_eq_true hne, decide_eq_true (string_length_pos hne)⟩

theorem tier1_nonempty_preserved_witness :
    ∃ r, ContentProcessor.extractContent 20 "<html>x</html>" (some shortArticle)
      trivialDoc "t" = .ok r ∧ r.text = "short text" :=
  tier1_nonempty_preserved 20 "<html>x</html>" shortArticle trivialDoc "t"
    (by decide) (by decide) (by decide) (by decide) (by decide)

/-- Claim C8, counterexample: a container whose single paragraph mentions
"cookie" (longer than 30 characters, no "subscribe"). The claim says
paragraphs matching the block-list ("subscribe", "cookie") are excluded, so
this tier would have to return nothing; the source keeps the paragraph and
returns it as the tier's text. -/
theorem fallback_cookie_paragraph_kept_cex :
    (ContentProcessor.extractWithFallback cookieDoc "host").map ArticleRec.text =
      some cookieParaText ∧
    containsLower cookieParaText "cookie" = true ∧
    containsLower cookieParaText "subscribe" = false ∧
    30 < cookieParaText.length := by
  refine ⟨by decide, by decide, by decide, by decide⟩

theorem floor_map_aux (j ti hs : String) (au ex : Option String) :
    Option.map ArticleRec.text
      (if j = "" || decide (j.length < 50) then none
       else some ⟨ti, j, hs, au, ex, j.length⟩) =
    (if 50 ≤ j.length then some j else none) := by
  by_cases hj : 50 ≤ j.length
  · rw [if_neg, if_pos hj]
    · rfl
    · intro hc
      rw [Bool.or_eq_true] at hc
      rcases hc with hc | hc
      · exact string_ne_empty_of_length_pos (by omega) (of_decide_eq_true hc)
      · exact absurd (of_decide_eq_true hc) (by omega)
  · rw [if_pos, if_neg hj]
    · rfl
    · rw [Bool.or_eq_true]
      right
      exact decide_eq_true (by omega)

/-- Claim C8, amended: the container is the element of the first selector in
the fixed candidate list with more than 2 paragraphs or more than 200
characters of text; its paragraph texts are collected when longer than 30
characters and not containing "subscribe" ("cookie" is not excluded on the
container path), and the tier returns their joined text when it reaches the
50-character floor; when no container paragraph passes the filter, the tier
succeeds instead with the container's raw trimmed text whenever it exceeds
100 characters; when no container matched, it collects page-wide paragraphs
longer than 50 characters excluding "subscribe" and "cookie" under the same
floor; in every other case it returns nothing — and every successful result
has at least 50 characters of text. -/
theorem selector_fallback_spec :
    (∀ (doc : DomDocument) (ft : String),
      (ContentProcessor.extractWithFallback doc ft).map ArticleRec.text =
        selectorFallbackSpecText doc) ∧
    (∀ (doc : DomDocument) (ft : String) (r : ArticleRec),
      ContentProcessor.extractWithFallback doc ft = some r → 50 ≤ r.text.length) := by
  constructor
  · intro doc ft
    rcases hpc : ContentProcessor.pickContainer doc with _ | el
    · -- no container matched: page-wide collection
      have hmap : (ContentProcessor.pageWideEntries doc).map Prod.fst =
          (doc.allParas.map (fun p => jsTrim p.textContent)).filter
            (fun t => decide (50 < t.length) && !(containsLower t "subscribe") &&
              !(containsLower t "cookie")) := by
        rw [ContentProcessor.pageWideEntries,
          map_fst_filter (fun t => decide (50 < t.length) &&
              !(containsLower t "subscribe") && !(containsLower t "cookie"))
            (doc.allParas.map (fun p => (jsTrim p.textContent, p.outerHTML)))]
        congr 1
        rw [List.map_map]
        rfl
      rcases hE : ContentProcessor.pageWideEntries doc with _ | ⟨e, es⟩
      · have htexts : (doc.allParas.map (fun p => jsTrim p.textContent)).filter
            (fun t => decide (50 < t.length) && !(containsLower t "subscribe") &&
              !(containsLower t "cookie")) = [] := by
          rw [← hmap, hE]
          rfl
        simp only [ContentProcessor.extractWithFallback, ContentProcessor.fallbackTextHtml,
          hpc, hE, List.isEmpty_nil, if_true, selectorFallbackSpecText, htexts]
        simp
      · have hth : ContentProcessor.fallbackTextHtml doc =
            (joinSep "\n\n" ((e :: es).map Prod.fst),
             ContentProcessor.wrapDiv (String.join ((e :: es).map Prod.snd))) := by
          simp only [ContentProcessor.fallbackTextHtml, hpc, hE, List.isEmpty_cons,
            Bool.false_eq_true, if_false]
        have htexts : (doc.allParas.map (fun p => jsTrim p.textContent)).filter
            (fun t => decide (50 < t.length) && !(containsLower t "subscribe") &&
              !(containsLower t "cookie")) = (e :: es).map Prod.fst := by
          rw [← hmap, hE]
        simp only [ContentProcessor.extractWithFallback, hth, selectorFallbackSpecText,
          hpc, htexts, List.map_cons, List.isEmpty_cons, Bool.false_eq_true, if_false]
        exact floor_map_aux _ _ _ _ _
    · -- container matched
      have hmap : (ContentProcessor.containerEntries el).map Prod.fst =
          (el.paras.map (fun p => jsTrim p.textContent)).filter
            (fun t => decide (30 < t.length) && !(containsLower t "subscribe")) := by
        rw [ContentProcessor.containerEntries,
          map_fst_filter (fun t => decide (30 < t.length) && !(containsLower t "subscribe"))
            (el.paras.map (fun p => (jsTrim p.textContent, p.outerHTML)))]
        congr 1
        rw [List.map_map]
        rfl
      rcases hE : ContentProcessor.containerEntries el with _ | ⟨e, es⟩
      · -- no container paragraph passed the filter: raw container text path
        have htexts : (el.paras.map (fun p => jsTrim p.textContent)).filter
            (fun t => decide (30 < t.length) && !(containsLower t "subscribe")) = [] := by
          rw [← hmap, hE]
          rfl
        by_cases hct : 100 < (jsTrim el.textContent).length
        · have hth : ContentProcessor.fallbackTextHtml doc =
              (jsTrim el.textContent,
               ContentProcessor.wrapDiv
                 ⟨replaceChar '\n' "<br>".data
                   (ContentProcessor.escapeHtml (jsTrim el.textContent)).data⟩) := by
            simp only [ContentProcessor.fallbackTextHtml, hpc, hE, List.isEmpty_nil,
              if_true]
            simp [hct]
          simp only [ContentProcessor.extractWithFallback, hth, selectorFallbackSpecText,
            hpc, htexts, List.isEmpty_nil, if_true]
          rw [floor_map_aux, if_pos (show 50 ≤ (jsTrim el.textContent).length by omega),
            if_pos (decide_eq_true hct)]
        · have hth : ContentProcessor.fallbackTextHtml doc = ("", "") := by
            simp only [ContentProcessor.fallbackTextHtml, hpc, hE, List.isEmpty_nil,
              if_true]
            simp [hct]
          simp only [ContentProcessor.extractWithFallback, hth, selectorFallbackSpecText,
            hpc, htexts, List.isEmpty_nil, if_true]
          simp [hct]
      · -- container paragraphs collected
        have hth : ContentProcessor.fallbackTextHtml doc =
            (joinSep "\n\n" ((e :: es).map Prod.fst),
             ContentProcessor.wrapDiv (String.join ((e :: es).map Prod.snd))) := by
          simp only [ContentProcessor.fallbackTextHtml, hpc, hE, List.isEmpty_cons,
            Bool.false_eq_true, if_false]
        have htexts : (el.paras.map (fun p => jsTrim p.textContent)).filter
            (fun t => decide (30 < t.length) && !(containsLower t "subscribe")) =
            (e :: es).map Prod.fst := by
          rw [← hmap, hE]
        simp only [ContentProcessor.extractWithFallback, hth, selectorFallbackSpecText,
          hpc, htexts, List.map_cons, List.isEmpty_cons, Bool.false_eq_true, if_false]
        exact floor_map_aux _ _ _ _ _
  · intro doc ft r h
    exact (extractWithFallback_some h).2.2

theorem selector_fallback_spec_witness :
    ((ContentProcessor.extractWithFallback plainDoc "host").map ArticleRec.text =
      selectorFallbackSpecText plainDoc) ∧ 50 ≤ plainRec.text.length :=
  ⟨selector_fallback_spec.1 plainDoc "host",
   selector_fallback_spec.2 plainDoc "host" plainRec (by decide)⟩
